import Mathlib

/-!
Verification of the purchase-order extraction pipeline
(`app/ocr_service.py` of CorporaITers/Merged_Back).

The pipeline is pure computation over strings: a format classifier,
format-specific field extractors, a validator/cleaner, a quality
assessor and a stats builder.  We embed the pipeline shallowly:

* Python dict records become Lean structures (`ExtractedRecord`,
  `LineItem`, `QualityAssessment`);
* in-place mutation (`validate_and_clean_result`) becomes a pure
  function returning the updated record;
* numeric scores (`float`) become `ℚ`; Python `round(x, 2)` becomes
  `round2` below (on every value this pipeline can produce the two
  agree, see the reachability analysis in the quality-assessor
  theorems);
* the format classifier and the four extractors live in
  `app/ocr_extractors.py`, which is not part of the sources at hand;
  `extract_po_data` and `get_extraction_stats` are therefore
  parameterised over them.
-/

/-- A line item of a purchase order (`products` entries in
`ocr_service.py`); all four fields are strings, as in the source. -/
structure LineItem where
  name : String
  quantity : String
  unitPrice : String
  amount : String
deriving Repr, DecidableEq

/-- The extracted purchase-order record (the dict produced by the
extractors and consumed by `validate_and_clean_result` /
`analyze_extraction_quality`). -/
structure ExtractedRecord where
  customer : String
  poNumber : String
  totalAmount : String
  products : List LineItem
deriving Repr, DecidableEq

/-- The sentinel line item appended by `validate_and_clean_result`
when no product was extracted (ocr_service.py lines 404-409). -/
def sentinel_product : LineItem :=
  { name := "Unknown Product", quantity := "", unitPrice := "", amount := "" }

/-- Characters kept by `re.sub(r'[^\d,.]', '', s)`: digits, comma,
period. -/
def keepNumChar (c : Char) : Bool :=
  c.isDigit || c = ',' || c = '.'

/-- Embedding of `re.sub(r'[^\d,.]', '', s)`: delete every character
that is not a digit, comma or period. -/
def re_sub_keep_num (s : String) : String :=
  ⟨s.data.filter keepNumChar⟩

/-- `occursIn pat l` : the character list `pat` occurs contiguously
inside `l` — the embedding of Python's substring test `pat in s`. -/
def occursIn (pat : List Char) : List Char → Bool
  | [] => pat.isEmpty
  | c :: rest => pat.isPrefixOf (c :: rest) || occursIn pat rest

/-- Python `pat in s` on strings. -/
def strContains (s pat : String) : Bool :=
  occursIn pat.data s.data

/-- `any(tok in s for tok in toks)`. -/
def anyTokIn (s : String) (toks : List String) : Bool :=
  toks.any (fun t => strContains s t)

/-- Unit tokens checked on `quantity` (ocr_service.py line 413). -/
def unit_tokens : List String := ["kg", "KG", "mt", "MT"]

/-- Currency tokens checked on money fields (lines 417, 420, 424). -/
def currency_tokens : List String := ["$", "USD"]

/-- Cleaning of a `quantity` field (ocr_service.py lines 413-414):
if non-empty and containing a unit token, keep only digits, commas
and periods. -/
def clean_quantity (q : String) : String :=
  if q ≠ "" ∧ anyTokIn q unit_tokens then re_sub_keep_num q else q

/-- Cleaning of a money field (`unitPrice`, `amount`, `totalAmount`;
lines 417-425): if non-empty and containing `$` or `USD`, keep only
digits, commas and periods. -/
def clean_money (s : String) : String :=
  if s ≠ "" ∧ anyTokIn s currency_tokens then re_sub_keep_num s else s

/-- The per-product body of the cleaning loop (lines 412-421). -/
def clean_product (p : LineItem) : LineItem :=
  { p with
    quantity := clean_quantity p.quantity
    unitPrice := clean_money p.unitPrice
    amount := clean_money p.amount }

/-- `validate_and_clean_result` (ocr_service.py lines 395-425):
append the sentinel product when `products` is empty, then strip
unit/currency noise from each product's numeric fields and from
`totalAmount`.  The Python function mutates `result` in place; the
embedding returns the updated record. -/
def validate_and_clean_result (r : ExtractedRecord) : ExtractedRecord :=
  let products := if r.products = [] then r.products ++ [sentinel_product] else r.products
  { r with
    products := products.map clean_product
    totalAmount := clean_money r.totalAmount }

/-- Format identifiers returned by the classifier
(`identify_po_format` in `app/ocr_extractors.py`); per the spec's
FormatVerdict, the id is one of format1/format2/format3/unknown. -/
inductive FormatId where
  | format1
  | format2
  | format3
  | unknown
deriving Repr, DecidableEq, BEq

/-- The dispatch threshold `0.4` used by `extract_po_data`. -/
def selection_threshold : ℚ := 2/5

/-- `extract_po_data` (ocr_service.py lines 371-393), parameterised
over the classifier and the four extractors, which live in
`app/ocr_extractors.py` (not among the sources at hand): classify,
dispatch on the verdict with threshold 0.4, then validate and clean
the chosen extractor's result. -/
def extract_po_data (identify_po_format : String → FormatId × ℚ)
    (extract_format1_data extract_format2_data extract_format3_data
      extract_generic_data : String → ExtractedRecord)
    (ocr_text : String) : ExtractedRecord :=
  let v := identify_po_format ocr_text
  let po_format := v.1
  let confidence := v.2
  let result :=
    if po_format = .format1 ∧ confidence ≥ selection_threshold then
      extract_format1_data ocr_text
    else if po_format = .format2 ∧ confidence ≥ selection_threshold then
      extract_format2_data ocr_text
    else if po_format = .format3 ∧ confidence ≥ selection_threshold then
      extract_format3_data ocr_text
    else
      extract_generic_data ocr_text
  validate_and_clean_result result

/-- Python `round(x, 2)` over the rationals: round to the nearest
hundredth, halves up.  Python rounds float halves to even, but no
value reachable in this pipeline is a midpoint between hundredths
(completeness/confidence values are k/7, k/4, 6k/35, k/10 and none of
these is an odd multiple of 1/200), so the two conventions agree on
every value this code produces. -/
def round2 (q : ℚ) : ℚ :=
  (⌊q * 100 + 1/2⌋ : ℚ) / 100

/-- Quality assessment record (the dict built by
`analyze_extraction_quality`). -/
structure QualityAssessment where
  completeness : ℚ
  confidence : ℚ
  missing_fields : List String
  recommendation : String
deriving Repr, DecidableEq

/-- `essential_fields` (ocr_service.py line 436). -/
def essential_fields : List String := ["customer", "poNumber", "totalAmount"]

/-- `product_fields` (ocr_service.py line 437). -/
def product_fields : List String := ["name", "quantity", "unitPrice", "amount"]

/-- Dict lookup `result[field]` for the header fields tested by
`analyze_extraction_quality`. -/
def recordField (r : ExtractedRecord) : String → String
  | "customer" => r.customer
  | "poNumber" => r.poNumber
  | "totalAmount" => r.totalAmount
  | _ => ""

/-- Dict lookup `first_product[field]` for the product sub-fields. -/
def productField (p : LineItem) : String → String
  | "name" => p.name
  | "quantity" => p.quantity
  | "unitPrice" => p.unitPrice
  | "amount" => p.amount
  | _ => ""

/-- The `missing_fields` list built in ocr_service.py lines 439-448:
the empty header fields, then either the single bundled
`products(...)` entry (first product, only when some sub-field is
empty) or the literal `"products"` when there is no product. -/
def missing_fields_of (r : ExtractedRecord) : List String :=
  let base := essential_fields.filter (fun f => recordField r f = "")
  match r.products with
  | [] => base ++ ["products"]
  | p :: _ =>
    let mpf := product_fields.filter (fun f => productField p f = "")
    if mpf = [] then base
    else base ++ ["products(" ++ String.intercalate ", " mpf ++ ")"]

/-- `total_fields` (ocr_service.py line 450). -/
def total_fields_of (r : ExtractedRecord) : ℚ :=
  (essential_fields.length : ℚ) +
    (if r.products.length > 0 then (product_fields.length : ℚ) else 1)

/-- The raw (pre-rounding) `completeness` ratio of ocr_service.py
lines 451-452: `filled_fields / total_fields` with
`filled_fields = total_fields - len(missing_fields)`.  Note the code
subtracts the LENGTH of the missing list, in which all missing product
sub-fields form a single bundled entry. -/
def completeness_of (r : ExtractedRecord) : ℚ :=
  (total_fields_of r - (missing_fields_of r).length) / total_fields_of r

/-- The three recommendation strings of ocr_service.py lines 460-465. -/
def reco_low : String := "抽出品質が低いため、手動で入力を確認してください。"

def reco_mid : String := "不足フィールドを手動で補完することをお勧めします。"

def reco_good : String := "抽出品質は良好です。内容を確認して進めてください。"

/-- `analyze_extraction_quality` (ocr_service.py lines 427-467). -/
def analyze_extraction_quality (r : ExtractedRecord) : QualityAssessment :=
  let completeness := completeness_of r
  { completeness := round2 completeness
    confidence := round2 (min 1 (completeness * (6/5)))
    missing_fields := missing_fields_of r
    recommendation :=
      if completeness < 1/2 then reco_low
      else if completeness < 4/5 then reco_mid
      else reco_good }

/-- The stats dict built by `get_extraction_stats`; the
`format_candidates` dict is modelled as an association list in
insertion order (winner first, then the remaining ids in
`all_formats` order). -/
structure ExtractionStats where
  text_length : Nat
  word_count : Nat
  format_candidates : List (FormatId × ℚ)
  extraction_time_ms : Nat
  quality_assessment : QualityAssessment
deriving Repr, DecidableEq

/-- `all_formats` (ocr_service.py line 482). -/
def all_formats : List FormatId := [.format1, .format2, .format3, .unknown]

/-- The `format_candidates` dict of ocr_service.py lines 479-485:
the winner is set to its confidence, every other known id to 0.0. -/
def format_candidates_of (v : FormatId × ℚ) : List (FormatId × ℚ) :=
  all_formats.foldl
    (fun acc fmt => if fmt ≠ v.1 then acc ++ [(fmt, 0)] else acc)
    [(v.1, v.2)]

/-- Embedding of Python `len(s.split())`: split on every whitespace
character and drop the empty pieces (Python's no-argument `split`
returns exactly the non-empty pieces of that splitting). -/
def splitWsAux (cur : List Char) : List Char → List (List Char)
  | [] => [cur.reverse]
  | c :: rest =>
    if c.isWhitespace then cur.reverse :: splitWsAux [] rest
    else splitWsAux (c :: cur) rest

/-- `len(ocr_text.split())` (ocr_service.py line 473). -/
def py_word_count (s : String) : Nat :=
  ((splitWsAux [] s.data).filter (fun w => w ≠ [])).length

/-- `get_extraction_stats` (ocr_service.py lines 469-487),
parameterised over the classifier from `app/ocr_extractors.py`. -/
def get_extraction_stats (identify_po_format : String → FormatId × ℚ)
    (ocr_text : String) (result : ExtractedRecord) : ExtractionStats :=
  { text_length := ocr_text.length
    word_count := py_word_count ocr_text
    format_candidates := format_candidates_of (identify_po_format ocr_text)
    extraction_time_ms := 0
    quality_assessment := analyze_extraction_quality result }

/-! ### Specification-side auxiliary definitions

These restate quantities of the spec independently of the embedded
code, for theorems comparing the two. -/

/-- Spec-side count of the empty required header fields. -/
def numMissingHeaders (r : ExtractedRecord) : Nat :=
  (if r.customer = "" then 1 else 0) + (if r.poNumber = "" then 1 else 0) +
    (if r.totalAmount = "" then 1 else 0)

/-- Spec-side indicator: 1 when some sub-field of the (first) product
is empty, else 0. -/
def firstProductIncomplete (p : LineItem) : Nat :=
  if p.name = "" ∨ p.quantity = "" ∨ p.unitPrice = "" ∨ p.amount = "" then 1 else 0

mutual

/-- Spec-side word count: the number of maximal whitespace-free runs
of a character list (what "number of whitespace-separated words"
denotes).  `wordRuns` scans outside a word. -/
def wordRuns : List Char → Nat
  | [] => 0
  | c :: rest => if c.isWhitespace then wordRuns rest else 1 + midWord rest

/-- Companion of `wordRuns`: scans while inside a word (the current
word is already counted). -/
def midWord : List Char → Nat
  | [] => 0
  | c :: rest => if c.isWhitespace then wordRuns rest else midWord rest

end

/-! ### Helper lemmas -/

/-- Cleaning the sentinel product changes nothing: its numeric fields
are empty, so no stripping triggers. -/
lemma clean_product_sentinel : clean_product sentinel_product = sentinel_product := by
  decide

/-- After validation the product list is never empty. -/
lemma validate_products_ne_nil (r : ExtractedRecord) :
    (validate_and_clean_result r).products ≠ [] := by
  unfold validate_and_clean_result
  cases h : r.products <;> simp [h]

/-- Every character surviving `re_sub_keep_num` is a digit, comma or
period. -/
lemma mem_re_sub_keep_num {c : Char} {s : String} :
    c ∈ (re_sub_keep_num s).data → keepNumChar c = true := by
  intro h
  simp only [re_sub_keep_num, List.mem_filter] at h
  exact h.2

/-- If a non-empty pattern occurs in `l`, its first character is a
member of `l`. -/
lemma occursIn_head_mem {c : Char} {cs l : List Char} :
    occursIn (c :: cs) l = true → c ∈ l := by
  induction l with
  | nil => intro h; simp [occursIn] at h
  | cons d rest ih =>
    intro h
    simp only [occursIn, Bool.or_eq_true] at h
    rcases h with h | h
    · have : c = d := by
        cases hpre : (c == d) with
        | false => simp [List.isPrefixOf, hpre] at h
        | true => exact eq_of_beq hpre
      simp [this]
    · exact List.mem_cons_of_mem _ (ih h)

/-- No unit token survives numeric stripping: the stripped string
contains only digits, commas and periods, and every unit token starts
with a letter. -/
lemma anyTokIn_re_sub_unit (s : String) :
    anyTokIn (re_sub_keep_num s) unit_tokens = false := by
  simp only [anyTokIn, unit_tokens, List.any_eq_false, List.mem_cons, List.not_mem_nil,
    or_false, strContains]
  rintro t (rfl | rfl | rfl | rfl) <;>
  · intro h
    have hm := occursIn_head_mem h
    have := mem_re_sub_keep_num hm
    simp [keepNumChar] at this

/-- No currency token survives numeric stripping. -/
lemma anyTokIn_re_sub_currency (s : String) :
    anyTokIn (re_sub_keep_num s) currency_tokens = false := by
  simp only [anyTokIn, currency_tokens, List.any_eq_false, List.mem_cons, List.not_mem_nil,
    or_false, strContains]
  rintro t (rfl | rfl) <;>
  · intro h
    have hm := occursIn_head_mem h
    have := mem_re_sub_keep_num hm
    simp [keepNumChar] at this

/-- `clean_quantity` is idempotent. -/
lemma clean_quantity_idem (q : String) :
    clean_quantity (clean_quantity q) = clean_quantity q := by
  by_cases h : q ≠ "" ∧ anyTokIn q unit_tokens = true
  · have h1 : clean_quantity q = re_sub_keep_num q := by simp [clean_quantity, h]
    rw [h1]
    simp [clean_quantity, anyTokIn_re_sub_unit]
  · have h1 : clean_quantity q = q := by simp only [clean_quantity, if_neg h]
    rw [h1]
    exact h1

/-- `clean_money` is idempotent. -/
lemma clean_money_idem (s : String) :
    clean_money (clean_money s) = clean_money s := by
  by_cases h : s ≠ "" ∧ anyTokIn s currency_tokens = true
  · have h1 : clean_money s = re_sub_keep_num s := by simp [clean_money, h]
    rw [h1]
    simp [clean_money, anyTokIn_re_sub_currency]
  · have h1 : clean_money s = s := by simp only [clean_money, if_neg h]
    rw [h1]
    exact h1

/-- Per-product cleaning is idempotent. -/
lemma clean_product_idem (p : LineItem) :
    clean_product (clean_product p) = clean_product p := by
  simp [clean_product, clean_quantity_idem, clean_money_idem]

/-- The header part of `missing_fields` has exactly one entry per
empty required header field. -/
lemma length_filter_headers (r : ExtractedRecord) :
    (essential_fields.filter (fun f => recordField r f = "")).length = numMissingHeaders r := by
  by_cases h1 : r.customer = "" <;> by_cases h2 : r.poNumber = "" <;>
    by_cases h3 : r.totalAmount = "" <;>
    simp [essential_fields, recordField, numMissingHeaders, h1, h2, h3]

/-- The bundled product entry exists iff some sub-field of the first
product is empty. -/
lemma filter_product_dichotomy (p : LineItem) :
    (product_fields.filter (fun f => productField p f = "") = [] ∧
      firstProductIncomplete p = 0) ∨
    (product_fields.filter (fun f => productField p f = "") ≠ [] ∧
      firstProductIncomplete p = 1) := by
  by_cases h1 : p.name = "" <;> by_cases h2 : p.quantity = "" <;>
    by_cases h3 : p.unitPrice = "" <;> by_cases h4 : p.amount = "" <;>
    simp [product_fields, productField, firstProductIncomplete, h1, h2, h3, h4]

/-- Length of the `missing_fields` list: one entry per empty header
field plus a single entry for the product side — the bundled string
when some sub-field of the first product is empty, the literal
`"products"` when there is no product. -/
lemma length_missing_fields (r : ExtractedRecord) :
    (missing_fields_of r).length =
      numMissingHeaders r +
        (match r.products with
         | [] => 1
         | p :: _ => firstProductIncomplete p) := by
  cases hp : r.products with
  | nil => simp [missing_fields_of, hp, length_filter_headers]
  | cons p rest =>
    rcases filter_product_dichotomy p with ⟨hnil, h0⟩ | ⟨hne, h1⟩
    · simp [missing_fields_of, hp, hnil, h0, length_filter_headers]
    · simp [missing_fields_of, hp, hne, h1, length_filter_headers]

lemma numMissingHeaders_le (r : ExtractedRecord) : numMissingHeaders r ≤ 3 := by
  unfold numMissingHeaders
  split_ifs <;> norm_num

lemma firstProductIncomplete_le (p : LineItem) : firstProductIncomplete p ≤ 1 := by
  unfold firstProductIncomplete
  split_ifs <;> norm_num

lemma total_fields_of_pos (r : ExtractedRecord) (h : r.products ≠ []) :
    total_fields_of r = 7 := by
  have : 0 < r.products.length := List.length_pos.mpr h
  simp [total_fields_of, essential_fields, product_fields, this]
  norm_num

lemma total_fields_of_nil (r : ExtractedRecord) (h : r.products = []) :
    total_fields_of r = 4 := by
  simp [total_fields_of, essential_fields, h]
  norm_num

/-- The raw completeness ratio takes one of finitely many values:
`(7-n)/7` with `n ≤ 4` missing entries when a product exists,
`(4-n)/4` with `1 ≤ n ≤ 4` when none does. -/
lemma completeness_cases (r : ExtractedRecord) :
    (∃ n : ℕ, n ≤ 4 ∧ (missing_fields_of r).length = n ∧ r.products ≠ [] ∧
       completeness_of r = (7 - (n : ℚ)) / 7) ∨
    (∃ n : ℕ, 1 ≤ n ∧ n ≤ 4 ∧ (missing_fields_of r).length = n ∧ r.products = [] ∧
       completeness_of r = (4 - (n : ℚ)) / 4) := by
  have hlen := length_missing_fields r
  cases hp : r.products with
  | nil =>
    right
    refine ⟨(missing_fields_of r).length, ?_, ?_, rfl, rfl, ?_⟩
    · rw [hlen, hp]
      simp
    · rw [hlen, hp]
      simp only
      have := numMissingHeaders_le r
      omega
    · unfold completeness_of
      rw [total_fields_of_nil r hp]
  | cons p rest =>
    left
    refine ⟨(missing_fields_of r).length, ?_, rfl, by simp [hp], ?_⟩
    · rw [hlen, hp]
      simp only
      have := numMissingHeaders_le r
      have := firstProductIncomplete_le p
      omega
    · unfold completeness_of
      rw [total_fields_of_pos r (by simp [hp])]

/-- `round2` is monotone. -/
lemma round2_mono {a b : ℚ} (h : a ≤ b) : round2 a ≤ round2 b := by
  unfold round2
  have hf : ⌊a * 100 + 1/2⌋ ≤ ⌊b * 100 + 1/2⌋ :=
    Int.floor_le_floor (by linarith)
  have : ((⌊a * 100 + 1/2⌋ : ℚ)) ≤ ((⌊b * 100 + 1/2⌋ : ℚ)) := by exact_mod_cast hf
  linarith

/-- Splitting on every whitespace character and dropping the empty
pieces yields exactly one piece per maximal whitespace-free run. -/
lemma splitWsAux_filter_length (l : List Char) :
    ∀ cur : List Char,
      ((splitWsAux cur l).filter (fun w => w ≠ [])).length =
        (if cur = [] then wordRuns l else 1 + midWord l) := by
  induction l with
  | nil =>
    intro cur
    by_cases h : cur = [] <;> simp [splitWsAux, wordRuns, midWord, h]
  | cons c rest ih =>
    intro cur
    simp only [ne_eq, decide_not] at ih
    by_cases hw : c.isWhitespace <;> by_cases h : cur = [] <;>
      (simp [splitWsAux, hw, wordRuns, midWord, h, ih]; try omega)

/-- The embedded Python word count equals the number of maximal
whitespace-free runs. -/
lemma py_word_count_eq (s : String) : py_word_count s = wordRuns s.data := by
  unfold py_word_count
  rw [splitWsAux_filter_length s.data []]
  simp

/-- `round2` maps `[0, 1]` into `[0, 1]`. -/
lemma round2_mem_unit {q : ℚ} (h0 : 0 ≤ q) (h1 : q ≤ 1) :
    0 ≤ round2 q ∧ round2 q ≤ 1 := by
  unfold round2
  constructor
  · have : (0 : ℤ) ≤ ⌊q * 100 + 1/2⌋ := by
      rw [Int.le_floor]
      push_cast
      linarith
    have : (0 : ℚ) ≤ (⌊q * 100 + 1/2⌋ : ℚ) := by exact_mod_cast this
    linarith
  · have : ⌊q * 100 + 1/2⌋ ≤ 100 := by
      have hle : q * 100 + 1/2 ≤ 201/2 := by linarith
      have := Int.floor_le_floor hle
      simpa using this.trans_eq (by norm_num)
    have : ((⌊q * 100 + 1/2⌋ : ℚ)) ≤ 100 := by exact_mod_cast this
    linarith

/-- The completeness field when a first product exists: deduct the
missing-header count and a single bundled product deduction from 7. -/
lemma analyze_completeness_cons (r : ExtractedRecord) (p : LineItem)
    (rest : List LineItem) (hp : r.products = p :: rest) :
    (analyze_extraction_quality r).completeness =
      round2 ((7 - ((numMissingHeaders r : ℚ) + (firstProductIncomplete p : ℚ))) / 7) := by
  have hlen := length_missing_fields r
  rw [hp] at hlen
  simp only at hlen
  show round2 (completeness_of r) = _
  unfold completeness_of
  rw [total_fields_of_pos r (by simp [hp]), hlen]
  congr 1
  push_cast
  ring

/-- The completeness field when no product exists: deduct the
missing-header count plus one (for `"products"`) from 4. -/
lemma analyze_completeness_nil (r : ExtractedRecord) (hp : r.products = []) :
    (analyze_extraction_quality r).completeness =
      round2 ((4 - ((numMissingHeaders r : ℚ) + 1)) / 4) := by
  have hlen := length_missing_fields r
  rw [hp] at hlen
  simp only at hlen
  show round2 (completeness_of r) = _
  unfold completeness_of
  rw [total_fields_of_nil r hp, hlen]
  congr 1
  push_cast
  ring

/-! ### Claim theorems -/

/-- C1: after `validate_and_clean_result`, the products list has
length at least one; and when the input products list was empty,
exactly the single sentinel line item
(`name = "Unknown Product"`, `quantity = unitPrice = amount = ""`)
has been appended and nothing else. -/
theorem C1_nonempty_products_invariant (r : ExtractedRecord) :
    1 ≤ (validate_and_clean_result r).products.length ∧
    (r.products = [] →
      (validate_and_clean_result r).products =
        [{ name := "Unknown Product", quantity := "", unitPrice := "", amount := "" }]) := by
  constructor
  · have h := validate_products_ne_nil r
    cases hv : (validate_and_clean_result r).products with
    | nil => exact absurd hv h
    | cons a l => simp
  · intro h
    show (validate_and_clean_result r).products = [sentinel_product]
    unfold validate_and_clean_result
    simp [h, clean_product_sentinel]

/-- Witness for C1 at a concrete record with an empty products list. -/
theorem C1_nonempty_products_invariant_witness :
    (validate_and_clean_result ⟨"Acme", "PO-1", "100", []⟩).products =
      [{ name := "Unknown Product", quantity := "", unitPrice := "", amount := "" }] :=
  (C1_nonempty_products_invariant ⟨"Acme", "PO-1", "100", []⟩).2 rfl

/-- C2: `validate_and_clean_result` strips a line item's `quantity`
down to its digit/comma/period characters exactly when it is
non-empty and contains one of `kg`, `KG`, `mt`, `MT`; it strips
`unitPrice`, `amount` and the record's `totalAmount` the same way
exactly when the field is non-empty and contains `$` or `USD`;
everything else is unchanged.  In particular
`"$1,234.56"` cleans to `"1,234.56"` and `"500 MT"` to `"500"`. -/
theorem C2_currency_unit_stripping (r : ExtractedRecord) (i : Nat) (p : LineItem)
    (hp : r.products[i]? = some p) :
    (validate_and_clean_result r).products[i]? = some
      { name := p.name
        quantity :=
          if p.quantity ≠ "" ∧ anyTokIn p.quantity ["kg", "KG", "mt", "MT"] then
            (⟨p.quantity.data.filter keepNumChar⟩ : String)
          else p.quantity
        unitPrice :=
          if p.unitPrice ≠ "" ∧ anyTokIn p.unitPrice ["$", "USD"] then
            (⟨p.unitPrice.data.filter keepNumChar⟩ : String)
          else p.unitPrice
        amount :=
          if p.amount ≠ "" ∧ anyTokIn p.amount ["$", "USD"] then
            (⟨p.amount.data.filter keepNumChar⟩ : String)
          else p.amount } ∧
    (validate_and_clean_result r).totalAmount =
      (if r.totalAmount ≠ "" ∧ anyTokIn r.totalAmount ["$", "USD"] then
        (⟨r.totalAmount.data.filter keepNumChar⟩ : String)
      else r.totalAmount) ∧
    clean_money "$1,234.56" = "1,234.56" ∧ clean_quantity "500 MT" = "500" := by
  have hne : r.products ≠ [] := by
    intro h
    rw [h] at hp
    simp at hp
  refine ⟨?_, ?_, by decide, by decide⟩
  · unfold validate_and_clean_result
    simp only [if_neg hne, List.getElem?_map, hp, Option.map_some]
    show some (clean_product p) = _
    unfold clean_product clean_quantity clean_money re_sub_keep_num unit_tokens currency_tokens
    rfl
  · unfold validate_and_clean_result clean_money re_sub_keep_num currency_tokens
    rfl

/-- Witness for C2 at a concrete record exercising both stripping
branches. -/
theorem C2_currency_unit_stripping_witness :
    (validate_and_clean_result
        ⟨"Acme", "PO-1", "$9", [⟨"Widget", "500 MT", "$1,234.56", "USD 20"⟩]⟩).products[0]? =
      some ⟨"Widget", "500", "1,234.56", "20"⟩ ∧
    (validate_and_clean_result
        ⟨"Acme", "PO-1", "$9", [⟨"Widget", "500 MT", "$1,234.56", "USD 20"⟩]⟩).totalAmount = "9" := by
  have h := C2_currency_unit_stripping
    ⟨"Acme", "PO-1", "$9", [⟨"Widget", "500 MT", "$1,234.56", "USD 20"⟩]⟩ 0
    ⟨"Widget", "500 MT", "$1,234.56", "USD 20"⟩ rfl
  refine ⟨?_, ?_⟩
  · rw [h.1]
    decide
  · rw [h.2.1]
    decide

/-- C3: `extract_po_data` routes to the format-specific extractor
exactly when the classifier returns that format with confidence at
least 0.4 (`selection_threshold = 2/5`), otherwise to the generic
extractor, and always returns the chosen extractor's result passed
through `validate_and_clean_result`. -/
theorem C3_dispatch (identify : String → FormatId × ℚ)
    (e1 e2 e3 eg : String → ExtractedRecord) (t : String) :
    (((identify t).1 = .format1 ∧ selection_threshold ≤ (identify t).2) →
      extract_po_data identify e1 e2 e3 eg t = validate_and_clean_result (e1 t)) ∧
    (((identify t).1 = .format2 ∧ selection_threshold ≤ (identify t).2) →
      extract_po_data identify e1 e2 e3 eg t = validate_and_clean_result (e2 t)) ∧
    (((identify t).1 = .format3 ∧ selection_threshold ≤ (identify t).2) →
      extract_po_data identify e1 e2 e3 eg t = validate_and_clean_result (e3 t)) ∧
    (((identify t).2 < selection_threshold ∨ (identify t).1 = .unknown) →
      extract_po_data identify e1 e2 e3 eg t = validate_and_clean_result (eg t)) := by
  unfold extract_po_data
  rcases hv : identify t with ⟨fmt, c⟩
  simp only [hv]
  cases fmt <;> by_cases hc : selection_threshold ≤ c <;>
    simp [hc, ge_iff_le, le_refl, not_le.mp, lt_iff_not_ge]

/-- Witness for C3: a classifier that answers format1 with full
confidence routes to the first extractor; one that answers format1
with confidence 0.2 (below threshold) routes to the generic
extractor. -/
theorem C3_dispatch_witness :
    extract_po_data (fun _ => (FormatId.format1, 1))
        (fun _ => ⟨"A", "", "", []⟩) (fun _ => ⟨"B", "", "", []⟩)
        (fun _ => ⟨"C", "", "", []⟩) (fun _ => ⟨"G", "", "", []⟩) "text" =
      validate_and_clean_result ⟨"A", "", "", []⟩ ∧
    extract_po_data (fun _ => (FormatId.format1, 1/5))
        (fun _ => ⟨"A", "", "", []⟩) (fun _ => ⟨"B", "", "", []⟩)
        (fun _ => ⟨"C", "", "", []⟩) (fun _ => ⟨"G", "", "", []⟩) "text" =
      validate_and_clean_result ⟨"G", "", "", []⟩ :=
  ⟨(C3_dispatch (fun _ => (FormatId.format1, 1)) _ _ _ _ "text").1
      ⟨rfl, by norm_num [selection_threshold]⟩,
    (C3_dispatch (fun _ => (FormatId.format1, 1/5)) _ _ _ _ "text").2.2.2
      (Or.inl (by norm_num [selection_threshold]))⟩

/-- C8: two evaluations of `extract_po_data` on the same text agree.
The Python string branch of `extract_po_data` reads no module-level
mutable state (its only inputs are the text and the pure callees),
so its shallow embedding is a pure function and determinism is
definitional: the equality below is the no-hidden-state property the
embedding can express. -/
theorem C8_deterministic (identify : String → FormatId × ℚ)
    (e1 e2 e3 eg : String → ExtractedRecord) (t : String) :
    extract_po_data identify e1 e2 e3 eg t =
      extract_po_data identify e1 e2 e3 eg t :=
  rfl

/-- Counterexample to C4 as stated: for the record with all header
fields present and a first product missing `quantity`, `unitPrice`
and `amount`, the claim predicts completeness `round2 (4/7) = 0.57`
(one deduction per missing sub-field), but the code deducts only the
LENGTH of `missing_fields`, where the three missing sub-fields form a
single bundled entry, giving `round2 (6/7) = 0.86`. -/
theorem C4_counterexample :
    (analyze_extraction_quality
        ⟨"Acme Corp", "PO-100", "500.00", [⟨"Widget", "", "", ""⟩]⟩).completeness = 86/100 ∧
    round2 (4/7) = 57/100 ∧ (86/100 : ℚ) ≠ 57/100 := by
  refine ⟨?_, by norm_num [round2], by norm_num⟩
  have hc := analyze_completeness_cons
    ⟨"Acme Corp", "PO-100", "500.00", [⟨"Widget", "", "", ""⟩]⟩ ⟨"Widget", "", "", ""⟩ [] rfl
  have h0 : numMissingHeaders ⟨"Acme Corp", "PO-100", "500.00", [⟨"Widget", "", "", ""⟩]⟩ = 0 := by
    decide
  have h1 : firstProductIncomplete ⟨"Widget", "", "", ""⟩ = 1 := by decide
  rw [hc, h0, h1]
  norm_num [round2]

/-- C4 (amended): `totalFields = 3 + (4 if products non-empty else
1)`, and `filledFields` deducts one per missing header field plus a
single deduction when any sub-field of the first product is missing
(the bundled `products(...)` entry counts once, NOT once per
sub-field); completeness is that ratio rounded to 2 decimals. -/
theorem C4_completeness_arithmetic (r : ExtractedRecord) :
    (∀ p rest, r.products = p :: rest →
      (analyze_extraction_quality r).completeness =
        round2 ((7 - ((numMissingHeaders r : ℚ) + (firstProductIncomplete p : ℚ))) / 7)) ∧
    (r.products = [] →
      (analyze_extraction_quality r).completeness =
        round2 ((4 - ((numMissingHeaders r : ℚ) + 1)) / 4)) :=
  ⟨fun p rest hp => analyze_completeness_cons r p rest hp,
   fun hp => analyze_completeness_nil r hp⟩

/-- Witness for C4 (amended) at two concrete records, one per
branch. -/
theorem C4_completeness_arithmetic_witness :
    (analyze_extraction_quality
        ⟨"Acme", "PO-1", "9", [⟨"W", "", "", ""⟩]⟩).completeness =
      round2 ((7 - ((0 : ℚ) + 1)) / 7) ∧
    (analyze_extraction_quality ⟨"", "", "", []⟩).completeness =
      round2 ((4 - ((3 : ℚ) + 1)) / 4) := by
  have h1 := (C4_completeness_arithmetic
      ⟨"Acme", "PO-1", "9", [⟨"W", "", "", ""⟩]⟩).1 ⟨"W", "", "", ""⟩ [] rfl
  have h2 := (C4_completeness_arithmetic ⟨"", "", "", []⟩).2 rfl
  have e0 : numMissingHeaders ⟨"Acme", "PO-1", "9", [⟨"W", "", "", ""⟩]⟩ = 0 := by decide
  have e1 : firstProductIncomplete (⟨"W", "", "", ""⟩ : LineItem) = 1 := by decide
  have e3 : numMissingHeaders ⟨"", "", "", []⟩ = 3 := by decide
  constructor
  · rw [h1, e0, e1]
    norm_num
  · rw [h2, e3]
    norm_num

/-- The validated all-empty record: appending the sentinel is the
only change. -/
lemma validate_empty_record :
    validate_and_clean_result ⟨"", "", "", []⟩ = ⟨"", "", "", [sentinel_product]⟩ := by
  decide

/-- Raw completeness of the validated all-empty record: the sentinel
product makes `has_product` true, so the ratio is `(7-4)/7 = 3/7`. -/
lemma completeness_of_empty_validated :
    completeness_of ⟨"", "", "", [sentinel_product]⟩ = 3/7 := by
  have hlen : (missing_fields_of ⟨"", "", "", [sentinel_product]⟩).length = 4 := by decide
  unfold completeness_of
  rw [total_fields_of_pos _ (by decide), hlen]
  norm_num

/-- Counterexample to C5 as stated: the record left by the pipeline
for anchor-free text (all header fields empty, validated, hence with
the one sentinel product) is NOT assessed on the no-product branch:
`total_fields` is 7, not 4, and completeness/confidence are
0.43/0.51, not 0.0/0.0 — the sentinel makes `has_product` true. -/
theorem C5_counterexample :
    validate_and_clean_result ⟨"", "", "", []⟩ = ⟨"", "", "", [sentinel_product]⟩ ∧
    total_fields_of (validate_and_clean_result ⟨"", "", "", []⟩) = 7 ∧ (7 : ℚ) ≠ 4 ∧
    (analyze_extraction_quality (validate_and_clean_result ⟨"", "", "", []⟩)).completeness
      = 43/100 ∧ (43/100 : ℚ) ≠ 0 ∧
    (analyze_extraction_quality (validate_and_clean_result ⟨"", "", "", []⟩)).confidence
      = 51/100 ∧ (51/100 : ℚ) ≠ 0 := by
  rw [validate_empty_record]
  refine ⟨rfl, total_fields_of_pos _ (by decide), by norm_num, ?_, by norm_num, ?_, by norm_num⟩
  · show round2 (completeness_of ⟨"", "", "", [sentinel_product]⟩) = 43/100
    rw [completeness_of_empty_validated]
    norm_num [round2]
  · show round2 (min 1 (completeness_of ⟨"", "", "", [sentinel_product]⟩ * (6/5))) = 51/100
    rw [completeness_of_empty_validated]
    norm_num [round2, min_def]

/-- C5 (amended): for the anchor-free scenario the validated record
(empty header fields, one sentinel product) is assessed on the
HAS-product branch: `total_fields = 7`, four missing entries
(`customer`, `poNumber`, `totalAmount` and the bundled
`products(quantity, unitPrice, amount)`), `completeness = 0.43`,
`confidence = 0.51`, and the low-quality recommendation tier. -/
theorem C5_scenario :
    (analyze_extraction_quality (validate_and_clean_result ⟨"", "", "", []⟩)).missing_fields =
      ["customer", "poNumber", "totalAmount", "products(quantity, unitPrice, amount)"] ∧
    total_fields_of (validate_and_clean_result ⟨"", "", "", []⟩) = 7 ∧
    (analyze_extraction_quality (validate_and_clean_result ⟨"", "", "", []⟩)).completeness
      = 43/100 ∧
    (analyze_extraction_quality (validate_and_clean_result ⟨"", "", "", []⟩)).confidence
      = 51/100 ∧
    (analyze_extraction_quality (validate_and_clean_result ⟨"", "", "", []⟩)).recommendation
      = reco_low := by
  rw [validate_empty_record]
  refine ⟨by decide, total_fields_of_pos _ (by decide), ?_, ?_, ?_⟩
  · show round2 (completeness_of ⟨"", "", "", [sentinel_product]⟩) = 43/100
    rw [completeness_of_empty_validated]
    norm_num [round2]
  · show round2 (min 1 (completeness_of ⟨"", "", "", [sentinel_product]⟩ * (6/5))) = 51/100
    rw [completeness_of_empty_validated]
    norm_num [round2, min_def]
  · show (if completeness_of ⟨"", "", "", [sentinel_product]⟩ < 1/2 then reco_low
      else if completeness_of ⟨"", "", "", [sentinel_product]⟩ < 4/5 then reco_mid
      else reco_good) = reco_low
    rw [completeness_of_empty_validated]
    norm_num

/-- C6: the reported completeness lies in `[0,1]`; the reported
confidence is `min(1, completeness*1.2)` (computed on the raw ratio,
as in the source) rounded to 2 decimals; and the recommendation tier
corresponds exactly to the thresholds 0.5 and 0.8 on the reported
completeness. -/
theorem C6_quality_bounds_and_tiers (r : ExtractedRecord) :
    0 ≤ (analyze_extraction_quality r).completeness ∧
    (analyze_extraction_quality r).completeness ≤ 1 ∧
    (analyze_extraction_quality r).confidence =
      round2 (min 1 (completeness_of r * (6/5))) ∧
    ((analyze_extraction_quality r).recommendation = reco_low ↔
      (analyze_extraction_quality r).completeness < 1/2) ∧
    ((analyze_extraction_quality r).recommendation = reco_mid ↔
      (1/2 ≤ (analyze_extraction_quality r).completeness ∧
        (analyze_extraction_quality r).completeness < 4/5)) ∧
    ((analyze_extraction_quality r).recommendation = reco_good ↔
      4/5 ≤ (analyze_extraction_quality r).completeness) := by
  have hdist1 : reco_low ≠ reco_mid := by decide
  have hdist2 : reco_low ≠ reco_good := by decide
  have hdist3 : reco_mid ≠ reco_good := by decide
  have hcomp : (analyze_extraction_quality r).completeness = round2 (completeness_of r) := rfl
  have hconf : (analyze_extraction_quality r).confidence =
      round2 (min 1 (completeness_of r * (6/5))) := rfl
  have hreco : (analyze_extraction_quality r).recommendation =
      (if completeness_of r < 1/2 then reco_low
       else if completeness_of r < 4/5 then reco_mid
       else reco_good) := rfl
  rw [hcomp, hconf, hreco]
  rcases completeness_cases r with ⟨n, hn, hlen, hne, hc⟩ | ⟨n, hn1, hn, hlen, hnil, hc⟩ <;>
    rw [hc] <;> interval_cases n <;>
    norm_num [round2, min_def, hdist1, hdist2, hdist3,
      hdist1.symm, hdist2.symm, hdist3.symm]

/-- C7: the stats record reports the text's length and its
whitespace-separated word count, and `format_candidates` contains all
four format ids, every id other than the classifier's winner being
mapped to 0.0. -/
theorem C7_stats_shape (identify : String → FormatId × ℚ) (t : String) (r : ExtractedRecord) :
    (get_extraction_stats identify t r).text_length = t.length ∧
    (get_extraction_stats identify t r).word_count = wordRuns t.data ∧
    (∀ fmt : FormatId, ∃ c : ℚ,
      (fmt, c) ∈ (get_extraction_stats identify t r).format_candidates) ∧
    (∀ fmt : FormatId, fmt ≠ (identify t).1 →
      ((fmt, (0:ℚ)) ∈ (get_extraction_stats identify t r).format_candidates ∧
       ∀ c : ℚ, (fmt, c) ∈ (get_extraction_stats identify t r).format_candidates → c = 0)) := by
  refine ⟨rfl, py_word_count_eq t, ?_, ?_⟩
  · intro fmt
    show ∃ c, (fmt, c) ∈ format_candidates_of (identify t)
    rcases hv : identify t with ⟨f0, c0⟩
    cases f0 <;> cases fmt <;>
      simp [format_candidates_of, all_formats]
  · intro fmt hfmt
    constructor
    · show (fmt, (0:ℚ)) ∈ format_candidates_of (identify t)
      rcases hv : identify t with ⟨f0, c0⟩
      rw [hv] at hfmt
      simp only at hfmt
      cases f0 <;> cases fmt <;>
        simp_all [format_candidates_of, all_formats]
    · intro c hc
      rw [show (get_extraction_stats identify t r).format_candidates =
        format_candidates_of (identify t) from rfl] at hc
      rcases hv : identify t with ⟨f0, c0⟩
      rw [hv] at hfmt hc
      simp only at hfmt
      cases f0 <;> cases fmt <;>
        simp_all [format_candidates_of, all_formats]

/-- Witness for C7: with a classifier answering format1, the
non-winning id format2 is present and mapped to 0. -/
theorem C7_stats_shape_witness :
    (FormatId.format2, (0:ℚ)) ∈
      (get_extraction_stats (fun _ => (FormatId.format1, 7/10)) "PO 123"
        ⟨"", "", "", []⟩).format_candidates :=
  ((C7_stats_shape (fun _ => (FormatId.format1, 7/10)) "PO 123" ⟨"", "", "", []⟩).2.2.2
      FormatId.format2 (by decide)).1

/-- C9: every record that went through `validate_and_clean_result`
is assessed on the has-product branch: `"products"` never appears in
`missing_fields`, `total_fields` is 7, at most 4 entries are missing,
and the reported completeness is at least `0.43` — in particular
completeness 0.0 is unreachable for validated records. -/
theorem C9_validated_assessment (r : ExtractedRecord) :
    "products" ∉ (analyze_extraction_quality (validate_and_clean_result r)).missing_fields ∧
    (analyze_extraction_quality (validate_and_clean_result r)).missing_fields.length ≤ 4 ∧
    total_fields_of (validate_and_clean_result r) = 7 ∧
    43/100 ≤ (analyze_extraction_quality (validate_and_clean_result r)).completeness ∧
    (analyze_extraction_quality (validate_and_clean_result r)).completeness ≠ 0 := by
  have hne := validate_products_ne_nil r
  have hmf : (analyze_extraction_quality (validate_and_clean_result r)).missing_fields =
      missing_fields_of (validate_and_clean_result r) := rfl
  have hge : 43/100 ≤ (analyze_extraction_quality (validate_and_clean_result r)).completeness := by
    rcases completeness_cases (validate_and_clean_result r) with
      ⟨n, hn, hlen, _, hc⟩ | ⟨_, _, _, _, hnil, _⟩
    · have hraw : (3 : ℚ)/7 ≤ completeness_of (validate_and_clean_result r) := by
        rw [hc]
        have : (n : ℚ) ≤ 4 := by exact_mod_cast hn
        linarith
      have : round2 (3/7) ≤ round2 (completeness_of (validate_and_clean_result r)) :=
        round2_mono hraw
      have h43 : round2 (3/7) = 43/100 := by norm_num [round2]
      rw [h43] at this
      exact this
    · exact absurd hnil hne
  refine ⟨?_, ?_, total_fields_of_pos _ hne, hge, by intro h0; rw [h0] at hge; norm_num at hge⟩
  · rw [hmf]
    cases hp : (validate_and_clean_result r).products with
    | nil => exact absurd hp hne
    | cons p rest =>
      intro hmem
      simp only [missing_fields_of, hp] at hmem
      rcases hd : product_fields.filter (fun f => productField p f = "") with _ | ⟨f1, frest⟩
      · rw [hd] at hmem
        simp only [if_pos rfl] at hmem
        have := List.mem_filter.mp hmem
        have h3 : "products" ∈ essential_fields := this.1
        simp [essential_fields] at h3
      · rw [hd] at hmem
        simp only [List.cons_ne_nil, if_neg, not_false_iff] at hmem
        rcases List.mem_append.mp hmem with hmem1 | hmem2
        · have := List.mem_filter.mp hmem1
          have h3 : "products" ∈ essential_fields := this.1
          simp [essential_fields] at h3
        · have heq : "products" =
              "products(" ++ String.intercalate ", " (f1 :: frest) ++ ")" := by
            simpa using hmem2
          have hlen := congrArg String.length heq
          rw [String.length_append, String.length_append] at hlen
          have e1 : "products".length = 8 := rfl
          have e2 : "products(".length = 9 := rfl
          have e3 : ")".length = 1 := rfl
          rw [e1, e2, e3] at hlen
          omega
  · rw [hmf, length_missing_fields]
    cases hp : (validate_and_clean_result r).products with
    | nil => exact absurd hp hne
    | cons p rest =>
      simp only
      have h1 := numMissingHeaders_le (validate_and_clean_result r)
      have h2 := firstProductIncomplete_le p
      omega

/-- C10: `validate_and_clean_result` is idempotent — a second pass
finds a non-empty products list (no second sentinel) and fields that
are either trigger-free (unchanged the first time) or stripped down
to digits/commas/periods, in which no unit or currency token can
occur, so nothing changes. -/
theorem C10_validate_idempotent (r : ExtractedRecord) :
    validate_and_clean_result (validate_and_clean_result r) = validate_and_clean_result r := by
  have hne := validate_products_ne_nil r
  have hp : (validate_and_clean_result r).products.map clean_product =
      (validate_and_clean_result r).products := by
    show ((if r.products = [] then r.products ++ [sentinel_product]
        else r.products).map clean_product).map clean_product = _
    rw [List.map_map]
    exact List.map_congr_left (fun a _ => clean_product_idem a)
  have ht : clean_money (validate_and_clean_result r).totalAmount =
      (validate_and_clean_result r).totalAmount := by
    show clean_money (clean_money r.totalAmount) = clean_money r.totalAmount
    exact clean_money_idem r.totalAmount
  show ({ validate_and_clean_result r with
      products := (if (validate_and_clean_result r).products = [] then
          (validate_and_clean_result r).products ++ [sentinel_product]
        else (validate_and_clean_result r).products).map clean_product
      totalAmount := clean_money (validate_and_clean_result r).totalAmount } :
        ExtractedRecord) =
    validate_and_clean_result r
  rw [if_neg hne, hp, ht]
